import Mathlib

/-!
Shallow embedding of the multi-language autograder execution engine
(`src/components/testharness/`) and proofs of its specification claims.

Conventions used throughout:
* JavaScript strings are modelled as Lean `String`/`List Char`; host regular
  expressions are modelled by explicit scanning functions that follow the
  regex semantics (leftmost match, greedy/lazy quantifiers as noted).
* Asynchronous host interactions (runtime boot, worker messages, timers,
  process execution) are modelled by explicit outcome parameters: each model
  function takes the outcome of every host interaction as an argument and
  produces the `RunResult` the corresponding TypeScript function returns.
* JavaScript numbers are modelled as `Int` (plus distinguished `NaN` and
  `-0` values where `Object.is` / `===` distinguish them).
-/

namespace Autograder

/-! ## Character and string utilities (models of host string primitives) -/

/-- Model of the JavaScript `\s` character class (also the `String.prototype.trim`
whitespace set): ASCII whitespace plus the Unicode space separators, line
separators and the BOM. -/
def isJsSpace (c : Char) : Bool :=
  let n := c.toNat
  (9 ≤ n && n ≤ 13) || n == 32 || n == 160 || n == 5760 ||
  (8192 ≤ n && n ≤ 8202) || n == 8232 || n == 8233 || n == 8239 ||
  n == 8287 || n == 12288 || n == 65279

/-- Model of the JavaScript `\w` character class: ASCII letters, digits, `_`. -/
def isWordChar (c : Char) : Bool :=
  ('a' ≤ c && c ≤ 'z') || ('A' ≤ c && c ≤ 'Z') || ('0' ≤ c && c ≤ '9') || c == '_'

/-- `\b` after a literal: the remaining input must not start with a word char. -/
def wordBoundary : List Char → Bool
  | [] => true
  | c :: _ => !isWordChar c

/-- Case-sensitive prefix test: the first list is a prefix of the second. -/
def isPrefixList : List Char → List Char → Bool
  | [], _ => true
  | _ :: _, [] => false
  | a :: p, b :: l => a == b && isPrefixList p l

/-- Case-insensitive literal match: consume the first list from the front of
the second (comparing lower-cased characters), returning the rest on success. -/
def dropCI : List Char → List Char → Option (List Char)
  | [], l => some l
  | _ :: _, [] => none
  | a :: p, b :: l => if a.toLower == b.toLower then dropCI p l else none

/-- Case-sensitive literal match: consume the first list from the front of the
second, returning the rest on success. -/
def dropCS : List Char → List Char → Option (List Char)
  | [], l => some l
  | _ :: _, [] => none
  | a :: p, b :: l => if a == b then dropCS p l else none

/-- Substring test, the model of `String.prototype.includes` and of `.test` of
a regex that is a plain literal: scans every start position. -/
def containsSub : List Char → List Char → Bool
  | needle, [] => needle.isEmpty
  | needle, l@(_ :: rest) => isPrefixList needle l || containsSub needle rest

def containsSubS (needle hay : String) : Bool :=
  containsSub needle.data hay.data

/-- Strip the JS whitespace set from both ends (model of `String.prototype.trim`). -/
def trimWs (l : List Char) : List Char :=
  ((l.dropWhile isJsSpace).reverse.dropWhile isJsSpace).reverse

def trimS (s : String) : String := String.mk (trimWs s.data)

/-- Model of `a || b` on JS strings (empty string is falsy). -/
def strOr (a b : String) : String := if a = "" then b else a

/-- Model of `s.endsWith('\n')` (the only `endsWith` use in the engine). -/
def endsWithNl (s : String) : Bool :=
  match s.data.getLast? with
  | some c => c == '\n'
  | none => false

/-- Model of `s.endsWith('\n') ? s : s + '\n'` as used by the harnesses. -/
def ensureNl (s : String) : String :=
  if endsWithNl s then s else s ++ "\n"

/-- Model of `\s+` : require at least one whitespace char, then consume the maximal run
(the literals that follow in all our patterns start with a non-space char, so
the greedy run is exact). -/
def ws1 : List Char → Option (List Char)
  | [] => none
  | c :: rest => if isJsSpace c then some ((c :: rest).dropWhile isJsSpace) else none

/-- Maximal digit run and what follows it (model of a greedy `\d+` attempt). -/
def digitsRun (l : List Char) : List Char × List Char :=
  (l.takeWhile Char.isDigit, l.dropWhile Char.isDigit)

def natOfDigits (ds : List Char) : Nat :=
  ds.foldl (fun a c => a * 10 + (c.toNat - 48)) 0

/-! ## `types.ts` : the result contract -/

/-- Structure `RunResult` from `types.ts`: the engine's only output shape.
`error` is `null | string` in the source, modelled as `Option String`. -/
structure RunResult where
  success : Bool
  output : String
  error : Option String
  timeout : Bool
deriving DecidableEq, Repr

/-- Constant `DEFAULT_TIMEOUT_MS` from `types.ts`. -/
def DEFAULT_TIMEOUT_MS : Nat := 60000

/-- Function `resultOk` from `types.ts`. -/
def resultOk (output : String) : RunResult :=
  ⟨true, output, none, false⟩

/-- Function `resultFail` from `types.ts` (the source's `timeout` parameter defaults to
`false`; every call site in this embedding passes it explicitly). -/
def resultFail (output : String) (error : String) (timeout : Bool) : RunResult :=
  ⟨false, output, some error, timeout⟩

/-- The spec's `RunResult` invariant (§3): `success === true` iff
`error === null && timeout === false`, and `timeout === true` implies
`error === 'timeout'`. -/
def resultInvariant (r : RunResult) : Prop :=
  (r.success = true ↔ (r.error = none ∧ r.timeout = false)) ∧
  (r.timeout = true → r.error = some "timeout")

/-- The hard-coded result the dispatcher resolves with when the outer timer
fires (`index.ts`, `runAutograder`). -/
def dispatchTimeoutResult : RunResult :=
  ⟨false, "Timed out", some "timeout", true⟩

/-- The dispatcher's race between the outer timer and the worker's single
result message (`index.ts`): the timer firing first yields the hard-coded
timeout result, otherwise the worker's payload is relayed unmodified. -/
def dispatchOutcome (outerFired : Bool) (payload : RunResult) : RunResult :=
  if outerFired then dispatchTimeoutResult else payload

/-- The shapes in which the engine constructs `RunResult`s: `resultOk`,
`resultFail` with the `timeout` flag omitted (hence `false`), `resultFail`
with `timeout = true` — which every call site in the engine
(`js-harness.ts:116`, `python-harness.ts:75,84`, `ocaml-harness.ts:98`)
invokes with error `'timeout'` — and the dispatcher's timeout literal. -/
inductive EngineConstructed : RunResult → Prop
  | ok (s : String) : EngineConstructed (resultOk s)
  | fail (s e : String) : EngineConstructed (resultFail s e false)
  | failTimeout (s : String) : EngineConstructed (resultFail s "timeout" true)
  | dispatchTimeout : EngineConstructed dispatchTimeoutResult

/-! ## `detect-language.ts` -/

/-- The closed language enum from `types.ts`. -/
inductive Language
  | js
  | python
  | ocaml
deriving DecidableEq, Repr

/-- Model of `String.prototype.toLowerCase` (the captured fence tags are ASCII
word characters, on which per-character lowering is exact). -/
def lowerStr (s : String) : String :=
  String.mk (s.data.map Char.toLower)

/-- Function `tagToLang` from `detect-language.ts`. -/
def tagToLang (tag : Option String) : Option Language :=
  let t := lowerStr (tag.getD "")
  if t = "js" ∨ t = "javascript" ∨ t = "node" ∨ t = "nodejs" then some Language.js
  else if t = "py" ∨ t = "python" then some Language.python
  else if t = "ml" ∨ t = "ocaml" then some Language.ocaml
  else none

/-- Backtick character (code point 96). -/
def isTick (c : Char) : Bool := c.toNat == 96

/-- Consume three backticks. -/
def dropTicks : List Char → Option (List Char)
  | a :: b :: c :: rest =>
    if isTick a && isTick b && isTick c then some rest else none
  | _ => none

/-- Is there a triple backtick anywhere in the input? -/
def hasTicks : List Char → Bool
  | [] => false
  | l@(_ :: rest) => (dropTicks l).isSome || hasTicks rest

/-- The leftmost match of ``` `(\w+)[\s\S]*?` ``` (the `CODE_FENCE_RE` of
`detect-language.ts`): at each position, three backticks followed by a
non-empty maximal word-character run (the captured tag), with a closing
triple backtick somewhere after the tag. -/
def fenceScan : List Char → Option String
  | [] => none
  | l@(_ :: rest) =>
    match dropTicks l with
    | some afterTicks =>
      let tag := afterTicks.takeWhile isWordChar
      if tag.isEmpty then fenceScan rest
      else if hasTicks (afterTicks.drop tag.length) then some (String.mk tag)
      else fenceScan rest
    | none => fenceScan rest

/-- Function `fenceLang` from `detect-language.ts`. -/
def fenceLang (s : String) : Option Language :=
  tagToLang (fenceScan s.data)

/-- Split on `/\r?\n/` (the line split used by `headerLang`). -/
def splitLinesRN : List Char → List Char → List (List Char)
  | acc, [] => [acc.reverse]
  | acc, '\r' :: '\n' :: rest => acc.reverse :: splitLinesRN [] rest
  | acc, '\n' :: rest => acc.reverse :: splitLinesRN [] rest
  | acc, c :: rest => splitLinesRN (c :: acc) rest

/-- Pattern `/^\/\/\s*LANG:\s*js\b/i` applied to the trimmed first line. -/
def matchJsHeader (l : List Char) : Bool :=
  match dropCI ['/', '/'] l with
  | none => false
  | some r1 =>
    match dropCI "lang:".data (r1.dropWhile isJsSpace) with
    | none => false
    | some r2 =>
      match dropCI "js".data (r2.dropWhile isJsSpace) with
      | none => false
      | some r3 => wordBoundary r3

/-- Pattern `/^#\s*LANG:\s*python\b/i` applied to the trimmed first line. -/
def matchPyHeader (l : List Char) : Bool :=
  match dropCI ['#'] l with
  | none => false
  | some r1 =>
    match dropCI "lang:".data (r1.dropWhile isJsSpace) with
    | none => false
    | some r2 =>
      match dropCI "python".data (r2.dropWhile isJsSpace) with
      | none => false
      | some r3 => wordBoundary r3

/-- Pattern `/^\(\*\s*LANG:\s*ocaml\s*\*\)/i` applied to the trimmed first line. -/
def matchMlHeader (l : List Char) : Bool :=
  match dropCI ['(', '*'] l with
  | none => false
  | some r1 =>
    match dropCI "lang:".data (r1.dropWhile isJsSpace) with
    | none => false
    | some r2 =>
      match dropCI "ocaml".data (r2.dropWhile isJsSpace) with
      | none => false
      | some r3 => (dropCI ['*', ')'] (r3.dropWhile isJsSpace)).isSome

/-- Function `headerLang` from `detect-language.ts`: the first non-blank line, trimmed,
matched against the three per-language header-comment idioms in order. -/
def headerLang (s : String) : Option Language :=
  let lines := splitLinesRN [] s.data
  let first := trimWs ((lines.find? (fun l => !(trimWs l).isEmpty)).getD [])
  if matchJsHeader first then some Language.js
  else if matchPyHeader first then some Language.python
  else if matchMlHeader first then some Language.ocaml
  else none

/-- Pattern `module\.exports\b` at the current position. -/
def matchModuleExports (l : List Char) : Bool :=
  isPrefixList "module.exports".data l && wordBoundary (l.drop 14)

/-- Test of `/module\.exports\b|require\(/` : scan every position. -/
def scanJsHeur : List Char → Bool
  | [] => false
  | l@(_ :: rest) =>
    matchModuleExports l || isPrefixList "require(".data l || scanJsHeur rest

/-- Pattern `from\s+typing\s+import\b` at the current position (case-sensitive,
as in the source, which has no `i` flag on the heuristic regexes). -/
def matchFromTyping (l : List Char) : Bool :=
  match dropCS "from".data l with
  | none => false
  | some r1 =>
    match ws1 r1 with
    | none => false
    | some r2 =>
      match dropCS "typing".data r2 with
      | none => false
      | some r3 =>
        match ws1 r3 with
        | none => false
        | some r4 =>
          match dropCS "import".data r4 with
          | none => false
          | some r5 => wordBoundary r5

/-- Pattern `def\s+solve\s*\(` at the current position. -/
def matchDefSolve (l : List Char) : Bool :=
  match dropCS "def".data l with
  | none => false
  | some r1 =>
    match ws1 r1 with
    | none => false
    | some r2 =>
      match dropCS "solve".data r2 with
      | none => false
      | some r3 => isPrefixList ['('] (r3.dropWhile isJsSpace)

/-- Test of `/from\s+typing\s+import\b|def\s+solve\s*\(/` : scan every position. -/
def scanPyHeur : List Char → Bool
  | [] => false
  | l@(_ :: rest) => matchFromTyping l || matchDefSolve l || scanPyHeur rest

/-- Pattern `let\s+solve\s*\(` at the current position. -/
def matchLetSolve (l : List Char) : Bool :=
  match dropCS "let".data l with
  | none => false
  | some r1 =>
    match ws1 r1 with
    | none => false
    | some r2 =>
      match dropCS "solve".data r2 with
      | none => false
      | some r3 => isPrefixList ['('] (r3.dropWhile isJsSpace)

/-- Pattern `open\s+OUnit2\b` at the current position (case-sensitive). -/
def matchOpenOUnit (l : List Char) : Bool :=
  match dropCS "open".data l with
  | none => false
  | some r1 =>
    match ws1 r1 with
    | none => false
    | some r2 => isPrefixList "OUnit2".data r2 && wordBoundary (r2.drop 6)

/-- Test of `/let\s+solve\s*\(|open\s+OUnit2\b/` : scan every position. -/
def scanMlHeur : List Char → Bool
  | [] => false
  | l@(_ :: rest) => matchLetSolve l || matchOpenOUnit l || scanMlHeur rest

/-- Function `heuristicLang` from `detect-language.ts`. -/
def heuristicLang (s : String) : Option Language :=
  if scanJsHeur s.data then some Language.js
  else if scanPyHeur s.data then some Language.python
  else if scanMlHeur s.data then some Language.ocaml
  else none

/-- Function `detectLanguageRaw` from `detect-language.ts`: fence, then header, then
heuristic, computed for each text; the tests' result wins. -/
def detectLanguageRaw (solution tests : String) : Option Language :=
  let sol1 := fenceLang solution
  let tst1 := fenceLang tests
  let sol2 := match sol1 with | some l => some l | none => headerLang solution
  let tst2 := match tst1 with | some l => some l | none => headerLang tests
  let sol3 := match sol2 with | some l => some l | none => heuristicLang solution
  let tst3 := match tst2 with | some l => some l | none => heuristicLang tests
  match tst3 with
  | some l => some l
  | none => sol3

/-- The three-stage detection cascade applied to a single text — the value the
source computes as `sol3` (for the solution) and `tst3` (for the tests). -/
def cascade (s : String) : Option Language :=
  match fenceLang s with
  | some l => some l
  | none =>
    match headerLang s with
    | some l => some l
    | none => heuristicLang s

/-! ## `deep-equal.ts`

JavaScript values are modelled with an explicit heap: primitives are
immediate, while objects (arrays, plain objects, dates, regexps, typed
arrays) live at heap addresses, so reference identity, shared structure and
cycles are representable.  The `seen` map of the source (a `WeakMap` keyed
by object identity) becomes an association list of address pairs threaded
through the recursion.  Recursion depth is bounded by an explicit fuel
parameter; a `none` result means the fuel ran out. -/

/-- JavaScript primitive values.  `NaN` and `-0` are distinguished
constructors because `Object.is` and `===` treat them specially; all other
numbers are modelled as integers.  Symbols are identified by a tag. -/
inductive JsPrim
  | nan
  | negZero
  | num (i : Int)
  | str (s : String)
  | boolean (b : Bool)
  | bigint (i : Int)
  | sym (id : Nat)
  | undef
  | jsNull
deriving DecidableEq, Repr

/-- A JavaScript value: a primitive, a reference to a heap object, or a
function (compared only by identity, so no heap content is needed). -/
inductive JsVal
  | prim (p : JsPrim)
  | ref (addr : Nat)
  | func (id : Nat)
deriving DecidableEq, Repr

/-- Heap objects: the object kinds `deepEqual` distinguishes. -/
inductive ObjVal
  | date (time : Int)
  | regexp (source flags : String)
  | typed (kind : Nat) (elems : List JsPrim)
  | arr (elems : List JsVal)
  | obj (fields : List (String × JsVal))
deriving DecidableEq, Repr

/-- A heap: address `i` holds the `i`-th object. -/
abbrev Heap := List ObjVal

/-- Model of `Object.is`: with `NaN` and `-0` as their own constructors and
references compared by address, `SameValue` is exactly structural equality
of `JsVal`. -/
def objIs (a b : JsVal) : Bool := decide (a = b)

/-- Model of `a == null` (loose): true exactly for `null` and `undefined`. -/
def isNullish (a : JsVal) : Bool :=
  decide (a = JsVal.prim JsPrim.undef) || decide (a = JsVal.prim JsPrim.jsNull)

/-- Model of `===` (strict equality): like `Object.is` except that `NaN` is
unequal to itself and `-0 === 0`. -/
def strictEq (a b : JsVal) : Bool :=
  match a, b with
  | JsVal.prim JsPrim.nan, _ => false
  | _, JsVal.prim JsPrim.nan => false
  | JsVal.prim JsPrim.negZero, JsVal.prim (JsPrim.num i) => decide (i = 0)
  | JsVal.prim (JsPrim.num i), JsVal.prim JsPrim.negZero => decide (i = 0)
  | _, _ => decide (a = b)

/-- The result kinds of JavaScript `typeof`. -/
inductive TypeTag
  | number
  | string
  | boolean
  | bigint
  | symbol
  | undefined
  | object
  | function
deriving DecidableEq, Repr

/-- Model of `typeof` (note `typeof null === 'object'`). -/
def typeofTag : JsVal → TypeTag
  | JsVal.prim JsPrim.nan => TypeTag.number
  | JsVal.prim JsPrim.negZero => TypeTag.number
  | JsVal.prim (JsPrim.num _) => TypeTag.number
  | JsVal.prim (JsPrim.str _) => TypeTag.string
  | JsVal.prim (JsPrim.boolean _) => TypeTag.boolean
  | JsVal.prim (JsPrim.bigint _) => TypeTag.bigint
  | JsVal.prim (JsPrim.sym _) => TypeTag.symbol
  | JsVal.prim JsPrim.undef => TypeTag.undefined
  | JsVal.prim JsPrim.jsNull => TypeTag.object
  | JsVal.ref _ => TypeTag.object
  | JsVal.func _ => TypeTag.function

def ObjVal.dateVal? : ObjVal → Option Int
  | ObjVal.date t => some t
  | _ => none

def ObjVal.regexpVal? : ObjVal → Option (String × String)
  | ObjVal.regexp src flags => some (src, flags)
  | _ => none

def ObjVal.typedVal? : ObjVal → Option (Nat × List JsPrim)
  | ObjVal.typed k es => some (k, es)
  | _ => none

def ObjVal.arrVal? : ObjVal → Option (List JsVal)
  | ObjVal.arr es => some es
  | _ => none

def ObjVal.isArr : ObjVal → Bool
  | ObjVal.arr _ => true
  | _ => false

/-- UTF-16 code units of a character (JavaScript strings are UTF-16). -/
def codeUnits (c : Char) : List Nat :=
  let n := c.toNat
  if n < 65536 then [n]
  else [55296 + (n - 65536) / 1024, 56320 + (n - 65536) % 1024]

def utf16Units (s : String) : List Nat :=
  s.data.foldr (fun c acc => codeUnits c ++ acc) []

/-- Lexicographic order on code-unit lists. -/
def unitsLe : List Nat → List Nat → Bool
  | [], _ => true
  | _ :: _, [] => false
  | x :: xs, y :: ys => if x < y then true else if y < x then false else unitsLe xs ys

/-- Default-comparator string order of `Array.prototype.sort`: lexicographic
on UTF-16 code units. -/
def keyLe (a b : String) : Bool := unitsLe (utf16Units a) (utf16Units b)

def insertSorted (k : String) : List String → List String
  | [] => [k]
  | x :: xs => if keyLe k x then k :: x :: xs else x :: insertSorted k xs

/-- Model of `ka.sort()` on a key list. -/
def sortKeys (l : List String) : List String := l.foldr insertSorted []

/-- Model of `Object.keys`: no enumerable own keys on dates and regexps,
index strings on arrays and typed arrays, field names on plain objects. -/
def jsKeys : ObjVal → List String
  | ObjVal.date _ => []
  | ObjVal.regexp _ _ => []
  | ObjVal.typed _ es => (List.range es.length).map (fun i => toString i)
  | ObjVal.arr es => (List.range es.length).map (fun i => toString i)
  | ObjVal.obj fs => fs.map Prod.fst

/-- Index denoted by a key string, if any: the `i < n` with `toString i = k`. -/
def idxOf (k : String) (n : Nat) : Option Nat :=
  (List.range n).findSome? (fun i => if toString i = k then some i else none)

/-- Model of property access `o[k]` (missing keys yield `undefined`). -/
def jsGet : ObjVal → String → JsVal
  | ObjVal.obj fs, k =>
    match fs.lookup k with
    | some v => v
    | none => JsVal.prim JsPrim.undef
  | ObjVal.arr es, k =>
    match idxOf k es.length with
    | some i =>
      match es.get? i with
      | some v => v
      | none => JsVal.prim JsPrim.undef
    | none => JsVal.prim JsPrim.undef
  | ObjVal.typed _ es, k =>
    match idxOf k es.length with
    | some i =>
      match es.get? i with
      | some p => JsVal.prim p
      | none => JsVal.prim JsPrim.undef
    | none => JsVal.prim JsPrim.undef
  | _, _ => JsVal.prim JsPrim.undef

/-- Fuelled model of `deepEqual(a, b, seen)` from `deep-equal.ts`, following
the source's check order exactly: `Object.is`; nullish values by `===`;
differing `typeof`; non-objects by `===`; dates by timestamp; regexps by
source and flags; typed arrays by constructor, length and element-wise `===`;
the cycle check (`seen.get(a) === b`, then `seen.set(a, b)`); arrays
element-wise; array vs non-array unequal; plain objects by sorted key sets
then per-key recursion.  The `seen` map is threaded through and returned, as
the source mutates a shared `WeakMap`.  A `none` verdict means the fuel was
exhausted.  The final catch-all arm is unreachable: after the `typeof`
checks both values are heap references. -/
def deepEqualF : Nat → Heap → List (Nat × Nat) → JsVal → JsVal →
    Option Bool × List (Nat × Nat)
  | 0, _, seen, _, _ => (none, seen)
  | Nat.succ fuel, h, seen, a, b =>
    if objIs a b then (some true, seen)
    else if isNullish a || isNullish b then (some (strictEq a b), seen)
    else if typeofTag a != typeofTag b then (some false, seen)
    else if typeofTag a != TypeTag.object then (some (strictEq a b), seen)
    else
      match a, b with
      | JsVal.ref pa, JsVal.ref pb =>
        match h.get? pa, h.get? pb with
        | some oa, some ob =>
          match oa.dateVal?, ob.dateVal? with
          | some ta, some tb => (some (decide (ta = tb)), seen)
          | _, _ =>
            match oa.regexpVal?, ob.regexpVal? with
            | some ra, some rb => (some (decide (ra = rb)), seen)
            | _, _ =>
              match oa.typedVal?, ob.typedVal? with
              | some (ka, ea), some (kb, eb) =>
                (some (decide (ka = kb) && decide (ea.length = eb.length) &&
                  (List.zip ea eb).all
                    (fun p => strictEq (JsVal.prim p.1) (JsVal.prim p.2))), seen)
              | _, _ =>
                if seen.lookup pa == some pb then (some true, seen)
                else
                  let seen1 := (pa, pb) :: seen
                  match oa.arrVal?, ob.arrVal? with
                  | some ea, some eb =>
                    if ea.length != eb.length then (some false, seen1)
                    else
                      (List.zip ea eb).foldl
                        (fun st p =>
                          match st.1 with
                          | some true => deepEqualF fuel h st.2 p.1 p.2
                          | _ => st)
                        (some true, seen1)
                  | _, _ =>
                    if oa.isArr || ob.isArr then (some false, seen1)
                    else
                      let ka := jsKeys oa
                      let kb := jsKeys ob
                      if ka.length != kb.length then (some false, seen1)
                      else if sortKeys ka != sortKeys kb then (some false, seen1)
                      else
                        (sortKeys ka).foldl
                          (fun st k =>
                            match st.1 with
                            | some true => deepEqualF fuel h st.2 (jsGet oa k) (jsGet ob k)
                            | _ => st)
                          (some true, seen1)
        | _, _ => (none, seen)
      | _, _ => (none, seen)

/-- Entry point `deepEqual(a, b)` (fresh empty `seen` map, as the default
`new WeakMap()` argument), returning only the verdict. -/
def deepEqual (h : Heap) (a b : JsVal) (fuel : Nat) : Option Bool :=
  (deepEqualF fuel h [] a b).1

/-! ## Shared error model

A thrown JavaScript error value is modelled by its `name`, `message` and
optional `stack`, the three projections the engine inspects. -/

structure JsErr where
  name : String
  message : String
  stack : Option String
deriving DecidableEq, Repr

/-- Model of `String(err)` for an `Error` value: `name: message` (just the
name when the message is empty). -/
def strOfErr (e : JsErr) : String :=
  if e.message = "" then e.name else e.name ++ ": " ++ e.message

/-- Model of `err?.stack || String(err)` (an empty stack string is falsy). -/
def stackOrStr (e : JsErr) : String :=
  match e.stack with
  | some s => if s = "" then strOfErr e else s
  | none => strOfErr e

/-- The timeout message every harness builds:
`` `Run exceeded ${timeoutMs} ms during test execution phase.` ``. -/
def timeoutMsg (timeoutMs : Nat) : String :=
  "Run exceeded " ++ toString timeoutMs ++ " ms during test execution phase."

/-! ## `js-harness.ts`

The harness API (`buildHarnessApi`) and the runner (`runJsHarness`).  Host
interactions — evaluating the solution and tests sources, each test body, and
the shared timeout flag — are modelled as outcome parameters. -/

/-- Simplified model of the host `String(v)` conversion used in `toBe`
failure messages (primitive values exact; object renderings abbreviated). -/
def jsToString : JsVal → String
  | JsVal.prim JsPrim.nan => "NaN"
  | JsVal.prim JsPrim.negZero => "0"
  | JsVal.prim (JsPrim.num i) => toString i
  | JsVal.prim (JsPrim.str s) => s
  | JsVal.prim (JsPrim.boolean b) => if b then "true" else "false"
  | JsVal.prim (JsPrim.bigint i) => toString i
  | JsVal.prim (JsPrim.sym n) => "Symbol(" ++ toString n ++ ")"
  | JsVal.prim JsPrim.undef => "undefined"
  | JsVal.prim JsPrim.jsNull => "null"
  | JsVal.ref a => "[object " ++ toString a ++ "]"
  | JsVal.func n => "[function " ++ toString n ++ "]"

/-- Simplified model of the serializer in `toEqual` failure messages
(`JSON.stringify` with a bigint replacer, falling back to `String`):
primitive values follow `JSON.stringify`, object renderings abbreviated. -/
def serJson : JsVal → String
  | JsVal.prim JsPrim.nan => "null"
  | JsVal.prim JsPrim.negZero => "0"
  | JsVal.prim (JsPrim.num i) => toString i
  | JsVal.prim (JsPrim.str s) => "\"" ++ s ++ "\""
  | JsVal.prim (JsPrim.boolean b) => if b then "true" else "false"
  | JsVal.prim (JsPrim.bigint i) => "\"" ++ toString i ++ "n\""
  | JsVal.prim (JsPrim.sym _) => "undefined"
  | JsVal.prim JsPrim.undef => "undefined"
  | JsVal.prim JsPrim.jsNull => "null"
  | JsVal.ref a => "[object " ++ toString a ++ "]"
  | JsVal.func n => "[function " ++ toString n ++ "]"

/-- The `toBe` matcher of `buildHarnessApi`: succeeds iff
`Object.is(received, expected)`, otherwise throws
`` `Expected (toBe): ${String(expected)}\nReceived: ${String(received)}` ``. -/
def toBe (received expected : JsVal) : Except String Unit :=
  if objIs received expected then Except.ok ()
  else Except.error
    ("Expected (toBe): " ++ jsToString expected ++ "\nReceived: " ++ jsToString received)

/-- The `toEqual` matcher of `buildHarnessApi`: succeeds iff
`deepEqual(received, expected)`, otherwise throws with serializations of
both values.  `none` when the fuel for `deepEqual` runs out. -/
def toEqual (h : Heap) (fuel : Nat) (received expected : JsVal) :
    Option (Except String Unit) :=
  match (deepEqualF fuel h [] received expected).1 with
  | none => none
  | some true => some (Except.ok ())
  | some false =>
    some (Except.error
      ("Expected (toEqual):\n" ++ serJson expected ++ "\nReceived:\n" ++ serJson received))

/-- Outcome of an `evalCJS` load (the solution or the tests source): normal
completion, or a thrown error. -/
inductive LoadOutcome
  | ok
  | threw (e : JsErr)
deriving Repr

/-- Outcome of one registered test body: passed, or threw/rejected with the
recorded report text (`e?.stack || String(e)`); a per-test `Promise.race`
loss is a throw with a `Test timeout: …` message. -/
inductive TestOutcome
  | passed
  | failed (err : String)
deriving Repr

/-- The catch-block classification of `runJsHarness`: `compile_error` when
the error name contains `SyntaxError` or `String(err)` matches
`/Unknown require path/`, else `runtime_error`; the output is
`err?.stack || String(err)`. -/
def jsCatch (e : JsErr) : RunResult :=
  let isCompile :=
    containsSubS "SyntaxError" e.name || containsSubS "Unknown require path" (strOfErr e)
  resultFail (stackOrStr e) (if isCompile then "compile_error" else "runtime_error") false

/-- Model of `runJsHarness`: load the solution, load the tests (either throw
is classified by the catch block), then run the registered tests against the
shared timeout flag.  `timerFired = some k` means the `timeoutMs` timer's
flag was observed `true` at loop check `k` (after `k` tests ran); the loop
checks the flag before each test and once after the loop, so any
`k ≤ tests.length` aborts the run with the timeout result.  Otherwise the
report is assembled exactly as in the source (`Ran N tests`, one line per
test, captured console output, `OK` / `FAILED (failures=K)`). -/
def runJsHarnessModel (solLoad testsLoad : LoadOutcome)
    (tests : List (String × TestOutcome)) (timerFired : Option Nat)
    (logs : List String) (timeoutMs : Nat) : RunResult :=
  match solLoad with
  | LoadOutcome.threw e => jsCatch e
  | LoadOutcome.ok =>
    match testsLoad with
    | LoadOutcome.threw e => jsCatch e
    | LoadOutcome.ok =>
      let timedOut :=
        match timerFired with
        | some k => decide (k ≤ tests.length)
        | none => false
      if timedOut then resultFail (timeoutMsg timeoutMs) "timeout" true
      else
        let results := tests.map (fun t =>
          match t.2 with
          | TestOutcome.passed => (t.1, true, "")
          | TestOutcome.failed err => (t.1, false, err))
        let failedCount := (results.filter (fun r => !r.2.1)).length
        let lines :=
          ("Ran " ++ toString results.length ++ " tests") ::
          results.map (fun r =>
            if r.2.1 then "✓ " ++ r.1 else "✗ " ++ r.1 ++ "\n" ++ r.2.2)
        let lines :=
          if logs.isEmpty then lines
          else lines ++ ["\nConsole output:", String.intercalate "\n" logs]
        if failedCount = 0 then
          resultOk (String.intercalate "\n" (lines ++ ["OK"]) ++ "\n")
        else
          resultFail
            (String.intercalate "\n"
              (lines ++ ["FAILED (failures=" ++ toString failedCount ++ ")"]) ++ "\n")
            "tests_failed" false

/-! ## `python-harness.ts` and the `PY_HARNESS` driver script -/

/-- What the fixed `PY_HARNESS` driver observably does, as a function of
whether `import solution` raises: on failure it prints the
`IMPORT_ERROR_START` / `IMPORT_ERROR_END` sentinel lines to stdout with the
traceback on stderr, re-raises, and never reaches `loader.discover`; on
success it runs discovery and prints the report JSON between the
`REPORT_JSON_START` / `REPORT_JSON_END` sentinels. -/
structure PyDriverRun where
  driverStdout : String
  driverStderr : String
  raised : Bool
  ranDiscovery : Bool
deriving Repr

def runPyDriver (importRaises : Bool) (tb : String) (reportJson : String) : PyDriverRun :=
  if importRaises then
    ⟨"IMPORT_ERROR_START\nIMPORT_ERROR_END\n", tb, true, false⟩
  else
    ⟨"REPORT_JSON_START\n" ++ reportJson ++ "\nREPORT_JSON_END\n", "", false, true⟩

/-- Suffix following the first occurrence of a marker, if any. -/
def extractAfter (marker : List Char) : List Char → Option (List Char)
  | [] => none
  | l@(_ :: rest) =>
    if isPrefixList marker l then some (l.drop marker.length)
    else extractAfter marker rest

/-- Characters strictly before the first occurrence of a marker, if any. -/
def takeUntil (marker : List Char) : List Char → Option (List Char)
  | [] => none
  | l@(c :: rest) =>
    if isPrefixList marker l then some []
    else (takeUntil marker rest).map (fun t => c :: t)

/-- The captured group of
`/REPORT_JSON_START\s*([\s\S]*?)\s*REPORT_JSON_END/` : the text between the
first start marker and the first end marker after it, with surrounding
whitespace absorbed by the greedy `\s*` and the lazy group. -/
def extractReport (out : String) : Option String :=
  match extractAfter "REPORT_JSON_START".data out.data with
  | none => none
  | some rest =>
    match takeUntil "REPORT_JSON_END".data rest with
    | none => none
    | some between => some (String.mk (trimWs between))

/-- The parsed report object `{testsRun, failures, errors, text}` printed by
the driver (`JSON.parse` of the captured group; `Number(x || 0)` on the
counts). -/
structure PyReport where
  testsRun : Nat
  failures : Nat
  errors : Nat
  text : String
deriving DecidableEq, Repr

/-- Outcome of `await Promise.race([exec, timerPromise])`: rejection with an
error (the timer promise rejects with `Error('timeout')`), or completion. -/
inductive PyExec
  | rejected (e : JsErr)
  | completed
deriving Repr

/-- Model of `runPythonPyodide`: boot, materialize files, race the driver
against the timer, then classify.  `out` and `err` are the captured stdout
and stderr at the decision point; `parsed` models `JSON.parse` of the
extracted report (`none` = the parse threw, with message `parseErrMsg`);
`didTimeout` is the `setTimeout` flag checked after a completed race. -/
def runPythonModel (bootErr writeErr : Option String) (exec : PyExec)
    (out err : String) (didTimeout : Bool) (parsed : Option PyReport)
    (parseErrMsg : String) (timeoutMs : Nat) : RunResult :=
  match bootErr with
  | some m => resultFail ("Failed to initialize Python runtime: " ++ m) "runtime_error" false
  | none =>
    match writeErr with
    | some m => resultFail ("Failed to materialize files: " ++ m) "runtime_error" false
    | none =>
      match exec with
      | PyExec.rejected e =>
        if e.message = "timeout" then
          resultFail (timeoutMsg timeoutMs) "timeout" true
        else if containsSubS "IMPORT_ERROR_START" out || containsSubS "SyntaxError" err then
          resultFail (strOr (strOr err out) (strOfErr e)) "compile_error" false
        else
          resultFail (strOr (strOr err out) (stackOrStr e)) "runtime_error" false
      | PyExec.completed =>
        if didTimeout then resultFail (timeoutMsg timeoutMs) "timeout" true
        else
          match extractReport out with
          | none =>
            let txt := strOr out err
            if containsSubS "FAILED" txt || containsSubS "Failure" txt ||
                containsSubS "AssertionError" txt then
              resultFail txt "tests_failed" false
            else
              resultFail (strOr txt "Unknown failure (no report parsed)") "runtime_error" false
          | some _ =>
            match parsed with
            | none =>
              resultFail ("Failed to parse report: " ++ parseErrMsg ++ "\n" ++ out)
                "runtime_error" false
            | some rep =>
              if rep.failures = 0 ∧ rep.errors = 0 then resultOk (ensureNl rep.text)
              else resultFail (ensureNl rep.text) "tests_failed" false

/-! ## `ocaml-harness.ts` -/

/-- Result of one `ocaml.run(argv)` toolchain invocation. -/
structure ProcResult where
  code : Int
  procStdout : String
  procStderr : String
deriving DecidableEq, Repr

/-- Outcome of one `runWithTimeout(argv)` call: the process result, or a
rejection (the shared timer promise rejects with `Error('timeout')`). -/
inductive StepOutcome
  | done (r : ProcResult)
  | threw (e : JsErr)
deriving Repr

/-- The diagnostic text of a failed toolchain step:
`(r.stderr || r.stdout || '').trim()` with a final newline appended when
missing. -/
def diagText (r : ProcResult) : String :=
  let diag := trimS (strOr r.procStderr r.procStdout)
  diag ++ (if endsWithNl diag then "" else "\n")

/-- The outer catch of `runOcamlWasm`: a rejection whose
`String(e?.message || e)` is `'timeout'` yields the timeout result, anything
else `runtime_error` with `e?.stack || String(e)`. -/
def ocamlCatch (e : JsErr) (timeoutMs : Nat) : RunResult :=
  if (if e.message = "" then strOfErr e else e.message) = "timeout" then
    resultFail (timeoutMsg timeoutMs) "timeout" true
  else
    resultFail (stackOrStr e) "runtime_error" false

/-- Decomposition test for the infix `\s*(?:[^\n]*\s)?` between `FAILED:` and
`errors:` — the consumed text is either all whitespace (optional group
skipped), or ends in a whitespace character with no `'\n'` between its
maximal leading whitespace run and that final character. -/
def failedInfixOk (u : List Char) : Bool :=
  if u.all isJsSpace then true
  else
    match u.getLast? with
    | none => false
    | some lastc =>
      isJsSpace lastc &&
      !(((u.dropWhile isJsSpace).dropLast).any (fun c => c == '\n'))

/-- After `errors:`, match `(\d+)\s+failures:(\d+)` (case-insensitive
literals, greedy digit and whitespace runs). -/
def errorsFailuresTail (v : List Char) : Option (Nat × Nat) :=
  match dropCI "errors:".data v with
  | none => none
  | some v1 =>
    let (d1, v2) := digitsRun v1
    if d1.isEmpty then none
    else
      match ws1 v2 with
      | none => none
      | some v3 =>
        match dropCI "failures:".data v3 with
        | none => none
        | some v4 =>
          let (d2, _) := digitsRun v4
          if d2.isEmpty then none
          else some (natOfDigits d1, natOfDigits d2)

/-- Scan the suffix after `FAILED:` for a split point where the consumed
infix is admissible and `errors:(\d+)\s+failures:(\d+)` follows; earliest
split first.  Returns `(errors, failures)`. -/
def failedTailGo (uRev : List Char) (v : List Char) : Option (Nat × Nat) :=
  match (if failedInfixOk uRev.reverse then errorsFailuresTail v else none) with
  | some r => some r
  | none =>
    match v with
    | [] => none
    | c :: rest => failedTailGo (c :: uRev) rest

/-- Leftmost match of
`/FAILED:\s*(?:[^\n]*\s)?errors:(\d+)\s+failures:(\d+)/i`, returning
`(errors, failures)`. -/
def failedScan : List Char → Option (Nat × Nat)
  | [] => none
  | l@(_ :: rest) =>
    match dropCI "failed:".data l with
    | some v =>
      match failedTailGo [] v with
      | some r => some r
      | none => failedScan rest
    | none => failedScan rest

/-- Line-terminator set recognized by a multiline regex anchor. -/
def isLineTerm (c : Char) : Bool :=
  c == '\n' || c == '\r' || c == Char.ofNat 8232 || c == Char.ofNat 8233

/-- After `OK`, the `\s*$` part of `/^\s*OK\s*$/m`: consume whitespace one
character at a time; `$` succeeds at the end of input or just before a line
terminator. -/
def okTail : List Char → Bool
  | [] => true
  | c :: rest =>
    if isLineTerm c then true
    else if isJsSpace c then okTail rest
    else false

/-- At a `^` position: `\s*OK\s*$` (the leading `\s*` stops exactly at the
first non-space because `O` is not whitespace). -/
def okMatchFrom (l : List Char) : Bool :=
  match dropCS "OK".data (l.dropWhile isJsSpace) with
  | some rest => okTail rest
  | none => false

/-- Test of `/^\s*OK\s*$/m` : try every line start (`atStart` marks the
beginning of input or the position after a line terminator). -/
def okLineScan (atStart : Bool) : List Char → Bool
  | [] => atStart && okMatchFrom []
  | l@(c :: rest) =>
    (atStart && okMatchFrom l) || okLineScan (isLineTerm c) rest

/-- At one position: `failures:\s*(\d+)\s*;\s*errors:\s*(\d+)` (literals
case-insensitive), returning `(failures, errors)`. -/
def m2At (l : List Char) : Option (Nat × Nat) :=
  match dropCI "failures:".data l with
  | none => none
  | some r1 =>
    let (d1, r2) := digitsRun (r1.dropWhile isJsSpace)
    if d1.isEmpty then none
    else
      match dropCS [';'] (r2.dropWhile isJsSpace) with
      | none => none
      | some r3 =>
        match dropCI "errors:".data (r3.dropWhile isJsSpace) with
        | none => none
        | some r4 =>
          let (d2, _) := digitsRun (r4.dropWhile isJsSpace)
          if d2.isEmpty then none
          else some (natOfDigits d1, natOfDigits d2)

/-- Leftmost match of `/failures:\s*(\d+)\s*;\s*errors:\s*(\d+)/i`. -/
def m2Scan : List Char → Option (Nat × Nat)
  | [] => none
  | l@(_ :: rest) =>
    match m2At l with
    | some r => some r
    | none => m2Scan rest

/-- The summary object of `parseOUnitSummary`. -/
structure OUnitSummary where
  failures : Nat
  errors : Nat
deriving DecidableEq, Repr

/-- Function `parseOUnitSummary` from `ocaml-harness.ts`: the `FAILED:` line
first, then a bare `OK` line (zero failures and errors), then the
`failures:N; errors:N` form, else no summary. -/
def parseOUnitSummary (text : String) : Option OUnitSummary :=
  match failedScan text.data with
  | some (e, f) => some ⟨f, e⟩
  | none =>
    if okLineScan true text.data then some ⟨0, 0⟩
    else
      match m2Scan text.data with
      | some (f, e) => some ⟨f, e⟩
      | none => none

/-- Model of `runOcamlWasm`: boot, materialize files, then the four
toolchain steps — compile solution, compile tests, link, execute — each
raced against the shared timer and each checked for non-zero exit before the
next runs.  A non-zero exit in the three build steps is a `compile_error`
with the captured diagnostics; the executed binary's combined output is fed
to `parseOUnitSummary`, whose verdict takes precedence over the exit code
(the exit code only matters when no summary parses). -/
def runOcamlModel (bootErr writeErr : Option String)
    (s1 s2 s3 s4 : StepOutcome) (timeoutMs : Nat) : RunResult :=
  match bootErr with
  | some m => resultFail ("Failed to initialize OCaml runtime: " ++ m) "runtime_error" false
  | none =>
    match writeErr with
    | some m => resultFail ("Failed to materialize OCaml files: " ++ m) "runtime_error" false
    | none =>
      match s1 with
      | StepOutcome.threw e => ocamlCatch e timeoutMs
      | StepOutcome.done r1 =>
        if r1.code ≠ 0 then resultFail (diagText r1) "compile_error" false
        else
          match s2 with
          | StepOutcome.threw e => ocamlCatch e timeoutMs
          | StepOutcome.done r2 =>
            if r2.code ≠ 0 then resultFail (diagText r2) "compile_error" false
            else
              match s3 with
              | StepOutcome.threw e => ocamlCatch e timeoutMs
              | StepOutcome.done r3 =>
                if r3.code ≠ 0 then resultFail (diagText r3) "compile_error" false
                else
                  match s4 with
                  | StepOutcome.threw e => ocamlCatch e timeoutMs
                  | StepOutcome.done r4 =>
                    let rawOut := r4.procStdout ++ r4.procStderr
                    match parseOUnitSummary rawOut with
                    | none =>
                      if r4.code ≠ 0 then
                        resultFail (strOr rawOut "OCaml runtime error") "runtime_error" false
                      else resultOk (ensureNl rawOut)
                    | some p =>
                      if p.errors = 0 ∧ p.failures = 0 then resultOk (ensureNl rawOut)
                      else resultFail (ensureNl rawOut) "tests_failed" false

/-! ## Shared lemmas -/

theorem isPrefixList_append_self (n s : List Char) : isPrefixList n (n ++ s) = true := by
  induction n with
  | nil => rfl
  | cons a p ih => simp [isPrefixList, ih]

theorem containsSub_cons (n : List Char) (c : Char) (t : List Char) :
    containsSub n (c :: t) = (isPrefixList n (c :: t) || containsSub n t) := rfl

theorem containsSub_nil_needle (l : List Char) : containsSub [] l = true := by
  induction l with
  | nil => rfl
  | cons c t ih => rw [containsSub_cons]; simp [isPrefixList]

theorem containsSub_self_append (n s : List Char) : containsSub n (n ++ s) = true := by
  cases n with
  | nil => simpa using containsSub_nil_needle s
  | cons a as =>
    rw [List.cons_append, containsSub_cons]
    have h := isPrefixList_append_self (a :: as) s
    rw [List.cons_append] at h
    simp [h]

theorem containsSub_of_mid (p n s : List Char) : containsSub n (p ++ (n ++ s)) = true := by
  induction p with
  | nil => simpa using containsSub_self_append n s
  | cons c cs ih =>
    rw [List.cons_append, containsSub_cons]
    simp [ih]

theorem data_append (a b : String) : (a ++ b).data = a.data ++ b.data := by
  cases a; cases b; rfl

theorem strAppend_assoc (a b c : String) : a ++ b ++ c = a ++ (b ++ c) := by
  cases a with
  | mk la =>
    cases b with
    | mk lb =>
      cases c with
      | mk lc =>
        show String.mk ((la ++ lb) ++ lc) = String.mk (la ++ (lb ++ lc))
        rw [List.append_assoc]

theorem strAppend_empty (a : String) : a ++ "" = a := by
  cases a with
  | mk la =>
    show String.mk (la ++ []) = String.mk la
    rw [List.append_nil]

theorem containsSubS_mid (p n s : String) : containsSubS n (p ++ n ++ s) = true := by
  rw [strAppend_assoc, containsSubS, data_append, data_append]
  exact containsSub_of_mid _ _ _

/-! ## Claims -/

/-- C1: Every `RunResult` the engine constructs — via `resultOk`, via
`resultFail` (whose call sites pass `timeout = true` only together with the
error `'timeout'`), or via the dispatch timeout path — satisfies the contract
invariant: `success` is `true` iff `error` is null and `timeout` is false,
and `timeout = true` implies `error = 'timeout'`. -/
theorem C1_engine_results_satisfy_invariant :
    ∀ r : RunResult, EngineConstructed r → resultInvariant r := by
  intro r h
  cases h <;> simp [resultInvariant, resultOk, resultFail, dispatchTimeoutResult]

/-- Witness for C1 at a concrete constructed result. -/
theorem C1_engine_results_satisfy_invariant_witness :
    EngineConstructed (resultOk "all tests passed\n") ∧
    resultInvariant (resultOk "all tests passed\n") :=
  ⟨EngineConstructed.ok _,
   C1_engine_results_satisfy_invariant _ (EngineConstructed.ok "all tests passed\n")⟩

/-- C2: For every pair of texts, if the fence/header/heuristic cascade
resolves a language for the tests text then `detectLanguageRaw` returns it
regardless of the solution text; the solution's cascade result is returned
only when the tests text resolves to nothing; and detection fails (returns
`null`, which the caller maps to `bad_language_detection`) exactly when both
cascades resolve to nothing. -/
theorem C2_tests_language_wins :
    ∀ solution tests : String,
      (∀ l, cascade tests = some l → detectLanguageRaw solution tests = some l) ∧
      (cascade tests = none → detectLanguageRaw solution tests = cascade solution) ∧
      (detectLanguageRaw solution tests = none ↔
        cascade tests = none ∧ cascade solution = none) := by
  intro solution tests
  simp only [detectLanguageRaw, cascade]
  cases fenceLang tests <;> cases headerLang tests <;> cases heuristicLang tests <;>
    cases fenceLang solution <;> cases headerLang solution <;>
    cases heuristicLang solution <;> simp

/-- Witness for C2: a Python-flavoured solution with JS-flavoured tests is
detected as JS. -/
theorem C2_tests_language_wins_witness :
    detectLanguageRaw "def solve(x):\n    return x" "module.exports = { add }" =
      some Language.js :=
  (C2_tests_language_wins "def solve(x):\n    return x" "module.exports = { add }").1
    Language.js (by decide)

/-- C3: For every value — in every heap, so including self-referential
(cyclic) structures — `deepEqual(x, x)` returns `true`, and it does so within
a single recursion frame (fuel `n + 1` for every `n`, in particular fuel 1):
the `Object.is` short-circuit fires, so the recursion is bounded. -/
theorem C3_deepEqual_self :
    ∀ (n : Nat) (h : Heap) (seen : List (Nat × Nat)) (x : JsVal),
      (deepEqualF (n + 1) h seen x x).1 = some true := by
  intro n h seen x
  simp [deepEqualF, objIs]

/-- C4: `deepEqual` on plain objects ignores key insertion order while
`deepEqual` on arrays is sensitive to element order, at the spec's own
examples: `{a:1,b:2}` vs `{b:2,a:1}` (equal) and `[1,2]` vs `[2,1]`
(unequal), with the two compared values living at distinct heap addresses. -/
theorem C4_object_key_order_irrelevant_array_order_relevant :
    deepEqual
      [ObjVal.obj [("a", JsVal.prim (JsPrim.num 1)), ("b", JsVal.prim (JsPrim.num 2))],
       ObjVal.obj [("b", JsVal.prim (JsPrim.num 2)), ("a", JsVal.prim (JsPrim.num 1))]]
      (JsVal.ref 0) (JsVal.ref 1) 3 = some true ∧
    deepEqual
      [ObjVal.arr [JsVal.prim (JsPrim.num 1), JsVal.prim (JsPrim.num 2)],
       ObjVal.arr [JsVal.prim (JsPrim.num 2), JsVal.prim (JsPrim.num 1)]]
      (JsVal.ref 0) (JsVal.ref 1) 3 = some false := by
  exact ⟨by decide, by decide⟩

/-- C5: Every run whose harness execution exceeds `timeoutMs` yields
`success:false, timeout:true, error:'timeout'`, whichever timer fires: the
outer dispatch timer (which discards the unit's payload entirely), the JS
harness's shared flag observed at any loop check, the Python race losing to
the timer promise (rejection with message `'timeout'`), or the Python flag
checked after a completed race. -/
theorem C5_timeout_yields_timeout_result :
    ∀ timeoutMs : Nat,
      (∀ payload : RunResult,
        (dispatchOutcome true payload).success = false ∧
        (dispatchOutcome true payload).timeout = true ∧
        (dispatchOutcome true payload).error = some "timeout") ∧
      (∀ (tests : List (String × TestOutcome)) (k : Nat) (logs : List String),
        k ≤ tests.length →
        runJsHarnessModel LoadOutcome.ok LoadOutcome.ok tests (some k) logs timeoutMs =
          resultFail (timeoutMsg timeoutMs) "timeout" true) ∧
      (∀ (stack : Option String) (out err : String) (dto : Bool)
          (parsed : Option PyReport) (pmsg : String),
        runPythonModel none none (PyExec.rejected ⟨"Error", "timeout", stack⟩)
            out err dto parsed pmsg timeoutMs =
          resultFail (timeoutMsg timeoutMs) "timeout" true) ∧
      (∀ (out err : String) (parsed : Option PyReport) (pmsg : String),
        runPythonModel none none PyExec.completed out err true parsed pmsg timeoutMs =
          resultFail (timeoutMsg timeoutMs) "timeout" true) := by
  intro tm
  refine ⟨?_, ?_, ?_, ?_⟩
  · intro p
    refine ⟨rfl, rfl, rfl⟩
  · intro tests k logs hk
    simp [runJsHarnessModel, hk]
  · intro stack out err dto parsed pmsg
    simp [runPythonModel]
  · intro out err parsed pmsg
    simp [runPythonModel]

/-- Witness for C5 at a concrete JS-harness run whose timer flag was observed
at the first loop check. -/
theorem C5_timeout_yields_timeout_result_witness :
    runJsHarnessModel LoadOutcome.ok LoadOutcome.ok [] (some 0) [] 1000 =
      resultFail (timeoutMsg 1000) "timeout" true :=
  (C5_timeout_yields_timeout_result 1000).2.1 [] 0 [] (by decide)

/-- C6: `expect(received).toBe(expected)` succeeds exactly when the two
values are identical in the `Object.is` sense, and
`expect(received).toEqual(expected)` succeeds exactly when `deepEqual`
verdicts `true`; each failure message contains the serializations of both
the expected and the received value. -/
theorem C6_expect_matchers :
    ∀ (h : Heap) (fuel : Nat) (received expected : JsVal),
      (toBe received expected = Except.ok () ↔ objIs received expected = true) ∧
      (∀ m, toBe received expected = Except.error m →
        containsSubS (jsToString expected) m = true ∧
        containsSubS (jsToString received) m = true) ∧
      (toEqual h fuel received expected = some (Except.ok ()) ↔
        (deepEqualF fuel h [] received expected).1 = some true) ∧
      (∀ m, toEqual h fuel received expected = some (Except.error m) →
        containsSubS (serJson expected) m = true ∧
        containsSubS (serJson received) m = true) := by
  intro h fuel received expected
  refine ⟨?_, ?_, ?_, ?_⟩
  · cases hob : objIs received expected <;> simp [toBe, hob]
  · intro m hm
    cases hob : objIs received expected with
    | true => simp [toBe, hob] at hm
    | false =>
      rw [toBe, hob] at hm
      simp only [Bool.false_eq_true, if_false, Except.error.injEq] at hm
      subst hm
      constructor
      · rw [strAppend_assoc ("Expected (toBe): " ++ jsToString expected)]
        exact containsSubS_mid _ _ _
      · have hc := containsSubS_mid
          ("Expected (toBe): " ++ jsToString expected ++ "\nReceived: ") (jsToString received) ""
        rwa [strAppend_empty] at hc
  · cases hde : (deepEqualF fuel h [] received expected).1 with
    | none => simp [toEqual, hde]
    | some b => cases b <;> simp [toEqual, hde]
  · intro m hm
    cases hde : (deepEqualF fuel h [] received expected).1 with
    | none => simp [toEqual, hde] at hm
    | some b =>
      cases b with
      | true => simp [toEqual, hde] at hm
      | false =>
        rw [toEqual, hde] at hm
        simp only [Option.some.injEq, Except.error.injEq] at hm
        subst hm
        constructor
        · rw [strAppend_assoc ("Expected (toEqual):\n" ++ serJson expected)]
          exact containsSubS_mid _ _ _
        · have hc := containsSubS_mid
            ("Expected (toEqual):\n" ++ serJson expected ++ "\nReceived:\n") (serJson received) ""
          rwa [strAppend_empty] at hc

/-- Witness for C6: identical numbers satisfy `toBe`. -/
theorem C6_expect_matchers_witness :
    toBe (JsVal.prim (JsPrim.num 3)) (JsVal.prim (JsPrim.num 3)) = Except.ok () :=
  (C6_expect_matchers [] 1 (JsVal.prim (JsPrim.num 3)) (JsVal.prim (JsPrim.num 3))).1.mpr
    (by decide)

/-- C7: An error thrown while loading the solution or the tests source is
classified by the harness catch block — `compile_error` when its name
contains `SyntaxError` or `String(err)` contains `Unknown require path`
(the loader's unresolved-dependency error), `runtime_error` otherwise — and
in both cases `runJsHarness` returns a `RunResult` (no load-phase exception
escapes). -/
theorem C7_js_load_error_classification :
    ∀ (e : JsErr) (testsLoad : LoadOutcome) (tests : List (String × TestOutcome))
      (timer : Option Nat) (logs : List String) (tm : Nat),
      ((containsSubS "SyntaxError" e.name ||
          containsSubS "Unknown require path" (strOfErr e)) = true →
        runJsHarnessModel (LoadOutcome.threw e) testsLoad tests timer logs tm =
          resultFail (stackOrStr e) "compile_error" false ∧
        runJsHarnessModel LoadOutcome.ok (LoadOutcome.threw e) tests timer logs tm =
          resultFail (stackOrStr e) "compile_error" false) ∧
      ((containsSubS "SyntaxError" e.name ||
          containsSubS "Unknown require path" (strOfErr e)) = false →
        runJsHarnessModel (LoadOutcome.threw e) testsLoad tests timer logs tm =
          resultFail (stackOrStr e) "runtime_error" false ∧
        runJsHarnessModel LoadOutcome.ok (LoadOutcome.threw e) tests timer logs tm =
          resultFail (stackOrStr e) "runtime_error" false) := by
  intro e tl tests timer logs tm
  constructor <;> intro hc <;>
    exact ⟨by simp [runJsHarnessModel, jsCatch, hc],
           by simp [runJsHarnessModel, jsCatch, hc]⟩

/-- Witness for C7: a thrown `SyntaxError` while loading the solution is a
`compile_error`. -/
theorem C7_js_load_error_classification_witness :
    runJsHarnessModel (LoadOutcome.threw ⟨"SyntaxError", "Unexpected token", none⟩)
      LoadOutcome.ok [] none [] 1000 =
      resultFail (stackOrStr ⟨"SyntaxError", "Unexpected token", none⟩) "compile_error" false :=
  ((C7_js_load_error_classification ⟨"SyntaxError", "Unexpected token", none⟩
      LoadOutcome.ok [] none [] 1000).1 (by decide)).1

/-- C8: A Python solution whose import fails makes the driver print the
`IMPORT_ERROR_START` sentinel and re-raise before any discovery, so the
harness — seeing the rejected run and the sentinel in captured stdout —
returns a `compile_error` result, and the unittest discovery stage never
executed.  (The hypothesis excludes the rejection message `'timeout'`,
which the harness attributes to its own timer.) -/
theorem C8_python_import_failure_compile_error :
    ∀ (tb reportJson : String) (e : JsErr) (dto : Bool)
      (parsed : Option PyReport) (pmsg : String) (tm : Nat),
      e.message ≠ "timeout" →
      (runPyDriver true tb reportJson).ranDiscovery = false ∧
      (runPythonModel none none (PyExec.rejected e)
          (runPyDriver true tb reportJson).driverStdout
          (runPyDriver true tb reportJson).driverStderr
          dto parsed pmsg tm).error = some "compile_error" ∧
      (runPythonModel none none (PyExec.rejected e)
          (runPyDriver true tb reportJson).driverStdout
          (runPyDriver true tb reportJson).driverStderr
          dto parsed pmsg tm).success = false := by
  intro tb reportJson e dto parsed pmsg tm hne
  have hsent : containsSubS "IMPORT_ERROR_START" "IMPORT_ERROR_START\nIMPORT_ERROR_END\n" =
      true := by decide
  refine ⟨rfl, ?_, ?_⟩ <;>
    simp [runPythonModel, runPyDriver, hne, hsent, resultFail]

/-- Witness for C8 at a concrete import-time syntax error. -/
theorem C8_python_import_failure_compile_error_witness :
    (runPythonModel none none
        (PyExec.rejected ⟨"PythonError", "SyntaxError: invalid syntax", none⟩)
        (runPyDriver true "Traceback (most recent call last):\n  SyntaxError" "").driverStdout
        (runPyDriver true "Traceback (most recent call last):\n  SyntaxError" "").driverStderr
        false none "" 60000).error = some "compile_error" :=
  (C8_python_import_failure_compile_error
      "Traceback (most recent call last):\n  SyntaxError" ""
      ⟨"PythonError", "SyntaxError: invalid syntax", none⟩ false none "" 60000
      (by decide)).2.1

/-- C9: A non-zero exit code in any of the first three OCaml toolchain steps
(compile solution, compile tests, link) makes `runOcamlWasm` return
`compile_error` with the captured diagnostic text (stderr, falling back to
stdout, trimmed and newline-terminated); the result does not depend on the
outcomes of the steps that follow, which are therefore never executed. -/
theorem C9_ocaml_build_failure_compile_error :
    ∀ (tm : Nat) (r1 r2 r3 : ProcResult) (s2 s3 s4 : StepOutcome),
      (r1.code ≠ 0 →
        runOcamlModel none none (StepOutcome.done r1) s2 s3 s4 tm =
          resultFail (diagText r1) "compile_error" false) ∧
      (r1.code = 0 → r2.code ≠ 0 →
        runOcamlModel none none (StepOutcome.done r1) (StepOutcome.done r2) s3 s4 tm =
          resultFail (diagText r2) "compile_error" false) ∧
      (r1.code = 0 → r2.code = 0 → r3.code ≠ 0 →
        runOcamlModel none none (StepOutcome.done r1) (StepOutcome.done r2)
          (StepOutcome.done r3) s4 tm =
          resultFail (diagText r3) "compile_error" false) := by
  intro tm r1 r2 r3 s2 s3 s4
  refine ⟨?_, ?_, ?_⟩ <;> intros <;> simp_all [runOcamlModel]

/-- Witness for C9 at a concrete failed first compile step. -/
theorem C9_ocaml_build_failure_compile_error_witness :
    runOcamlModel none none (StepOutcome.done ⟨2, "", "Error: Syntax error"⟩)
      (StepOutcome.done ⟨0, "", ""⟩) (StepOutcome.done ⟨0, "", ""⟩)
      (StepOutcome.done ⟨0, "", ""⟩) 60000 =
      resultFail (diagText ⟨2, "", "Error: Syntax error"⟩) "compile_error" false :=
  (C9_ocaml_build_failure_compile_error 60000 ⟨2, "", "Error: Syntax error"⟩
      ⟨0, "", ""⟩ ⟨0, "", ""⟩ (StepOutcome.done ⟨0, "", ""⟩) (StepOutcome.done ⟨0, "", ""⟩)
      (StepOutcome.done ⟨0, "", ""⟩)).1 (by decide)

/-- C10: When the executed OCaml test binary's combined stdout+stderr has a
line consisting solely of `OK` (the `/^\s*OK\s*$/m` test) and does not match
the `FAILED: … errors:N failures:N` pattern, the parsed summary is zero
failures and zero errors and `runOcamlWasm` reports success — even when the
process exit code is non-zero: the parsed summary takes precedence over the
exit code. -/
theorem C10_ok_line_overrides_exit_code :
    ∀ (tm : Nat) (r1 r2 r3 r4 : ProcResult),
      r1.code = 0 → r2.code = 0 → r3.code = 0 → r4.code ≠ 0 →
      failedScan (r4.procStdout ++ r4.procStderr).data = none →
      okLineScan true (r4.procStdout ++ r4.procStderr).data = true →
      runOcamlModel none none (StepOutcome.done r1) (StepOutcome.done r2)
          (StepOutcome.done r3) (StepOutcome.done r4) tm =
        resultOk (ensureNl (r4.procStdout ++ r4.procStderr)) ∧
      (runOcamlModel none none (StepOutcome.done r1) (StepOutcome.done r2)
          (StepOutcome.done r3) (StepOutcome.done r4) tm).success = true := by
  intro tm r1 r2 r3 r4 h1 h2 h3 _h4 hfail hok
  have hfail2 : failedScan (r4.procStdout.data ++ r4.procStderr.data) = none := by
    rw [← data_append]; exact hfail
  have hok2 : okLineScan true (r4.procStdout.data ++ r4.procStderr.data) = true := by
    rw [← data_append]; exact hok
  have hres : runOcamlModel none none (StepOutcome.done r1) (StepOutcome.done r2)
      (StepOutcome.done r3) (StepOutcome.done r4) tm =
      resultOk (ensureNl (r4.procStdout ++ r4.procStderr)) := by
    simp [runOcamlModel, h1, h2, h3, parseOUnitSummary, hfail2, hok2]
  exact ⟨hres, by rw [hres]; rfl⟩

/-- Witness for C10: exit code 2 with a bare `OK` report line still succeeds. -/
theorem C10_ok_line_overrides_exit_code_witness :
    runOcamlModel none none (StepOutcome.done ⟨0, "", ""⟩) (StepOutcome.done ⟨0, "", ""⟩)
        (StepOutcome.done ⟨0, "", ""⟩) (StepOutcome.done ⟨2, "OK\n", ""⟩) 60000 =
      resultOk (ensureNl ("OK\n" ++ "")) :=
  (C10_ok_line_overrides_exit_code 60000 ⟨0, "", ""⟩ ⟨0, "", ""⟩ ⟨0, "", ""⟩
      ⟨2, "OK\n", ""⟩ rfl rfl rfl (by decide) (by decide) (by decide)).1

end Autograder
